import Mathlib

/-!
# Verification of the go-astiocr synthetic training-data generator

Shallow embedding of the data model and operations of the `astiocr` Go
package (files `gather.go` and the trainer construction in the unnamed
source part defining `NewTrainer`), together with theorems settling the
frozen claims about the natural-language specification.

Conventions of the embedding:
* Go `int` values are modelled as `Int` (no overflow is relevant here);
  loop counters that are non-negative by construction are modelled as `Nat`.
* Go `float64` arithmetic is modelled over `ℚ`; the Go conversion `int(x)`
  truncates toward zero and is modelled by `goTrunc`.
* `rand.Intn n` draws are modelled by an oracle stream `rng : Nat → Nat`
  consumed at an explicit cursor `i`; the `k`-th draw of `Intn n` is
  `rng k % n`, which is in `[0, n)` exactly as in Go.
* Fallible operations (Go slice indexing that can panic) return `Option`.
* File-system writes are modelled as succeeding; the `Gather` model records
  which image files and summaries would be written.
-/

namespace Astiocr

/-- The full ordered label alphabet, from `const characters` in gather.go. -/
def characters : String := "abcdefghijklmnopqrstuvwxyzABCDEFGHIJKLMNOPQRSTUVWXYZ"

/-- Go's `int(x)` conversion of a non-negative `float64`, modelled over `ℚ`:
truncation toward zero (`Int.tdiv` of numerator by denominator). -/
def goTrunc (q : ℚ) : ℤ := q.num.tdiv q.den

/-- For non-negative arguments Go's truncating conversion agrees with `Int.floor`. -/
lemma goTrunc_eq_floor (q : ℚ) (hq : 0 ≤ q) : goTrunc q = ⌊q⌋ := by
  have hnum : 0 ≤ q.num := Rat.num_nonneg.2 hq
  have hden : (0 : ℤ) ≤ (q.den : ℤ) := Int.ofNat_nonneg q.den
  rw [goTrunc, Int.tdiv_eq_ediv hnum hden, Rat.floor_def]

/-- The three counts computed by `NewTrainer` (unnamed part defining the
`Trainer` struct): effective image count, test data count, training data count. -/
structure TrainerCounts where
  count : ℤ
  testDataCount : ℤ
  trainingDataCount : ℤ
deriving DecidableEq, Repr

/-- The count computation of `NewTrainer`:
```
t.count = c.Count;                         if t.count == 0 { t.count = 1 }
t.testDataProportion = c.TestDataProportion
                                           if t.testDataProportion == 0 { t.testDataProportion = 30.0 }
t.testDataCount = int(t.testDataProportion * float64(t.count) / 100)
t.trainingDataCount = t.count - t.testDataCount
if t.testDataCount == 0 { t.testDataCount++; t.count++ }
```
-/
def newTrainerCounts (cCount : ℤ) (cProp : ℚ) : TrainerCounts :=
  let count := if cCount = 0 then 1 else cCount
  let p := if cProp = 0 then 30 else cProp
  let testDataCount := goTrunc (p * (count : ℚ) / 100)
  let trainingDataCount := count - testDataCount
  if testDataCount = 0 then
    { count := count + 1
      testDataCount := testDataCount + 1
      trainingDataCount := trainingDataCount }
  else
    { count := count
      testDataCount := testDataCount
      trainingDataCount := trainingDataCount }

/-- **C1.** For every valid configuration (`total_count ≥ 0`, `test_proportion ≥ 0`
as a percentage, defaulting to `30.0` when zero), `NewTrainer` computes
`test_count = ⌊test_proportion * total_count / 100⌋` and
`training_count = total_count - test_count`, defaults `total_count` to `1`
when it is `0`, and when `test_count` is `0` (while the effective
`total_count > 0`, which always holds) increments both `test_count` and
`total_count` by one; afterwards `training_count + test_count` equals the
effective `total_count` and `test_count ≥ 1`.  In particular
`total_count = 1, test_proportion = 30` yields effective total `2`,
`training_count = 1`, `test_count = 1`. -/
theorem C1_split_allocator (cCount : ℤ) (cProp : ℚ)
    (hc : 0 ≤ cCount) (hp : 0 ≤ cProp) :
    (newTrainerCounts cCount cProp).testDataCount =
      (if ⌊(if cProp = 0 then 30 else cProp) *
            ((if cCount = 0 then 1 else cCount : ℤ) : ℚ) / 100⌋ = 0 then
        ⌊(if cProp = 0 then 30 else cProp) *
            ((if cCount = 0 then 1 else cCount : ℤ) : ℚ) / 100⌋ + 1
       else
        ⌊(if cProp = 0 then 30 else cProp) *
            ((if cCount = 0 then 1 else cCount : ℤ) : ℚ) / 100⌋) ∧
    (newTrainerCounts cCount cProp).count =
      (if ⌊(if cProp = 0 then 30 else cProp) *
            ((if cCount = 0 then 1 else cCount : ℤ) : ℚ) / 100⌋ = 0 then
        (if cCount = 0 then 1 else cCount) + 1
       else
        (if cCount = 0 then 1 else cCount)) ∧
    (newTrainerCounts cCount cProp).trainingDataCount =
      (if cCount = 0 then 1 else cCount) -
        ⌊(if cProp = 0 then 30 else cProp) *
            ((if cCount = 0 then 1 else cCount : ℤ) : ℚ) / 100⌋ ∧
    (newTrainerCounts cCount cProp).trainingDataCount +
        (newTrainerCounts cCount cProp).testDataCount =
      (newTrainerCounts cCount cProp).count ∧
    1 ≤ (newTrainerCounts cCount cProp).testDataCount ∧
    newTrainerCounts 1 30 = ⟨2, 1, 1⟩ := by
  have hcount : (0 : ℤ) < (if cCount = 0 then 1 else cCount) := by
    by_cases h : cCount = 0
    · rw [if_pos h]; norm_num
    · rw [if_neg h]; omega
  have hprop : (0 : ℚ) ≤ (if cProp = 0 then 30 else cProp) := by
    by_cases h : cProp = 0
    · rw [if_pos h]; norm_num
    · rw [if_neg h]; exact hp
  have harg : (0 : ℚ) ≤
      (if cProp = 0 then 30 else cProp) * ((if cCount = 0 then 1 else cCount : ℤ) : ℚ) / 100 := by
    have h1 : (0 : ℚ) ≤ ((if cCount = 0 then 1 else cCount : ℤ) : ℚ) := by
      exact_mod_cast le_of_lt hcount
    positivity
  have hfloor := goTrunc_eq_floor _ harg
  have hfloor_nonneg : 0 ≤ ⌊(if cProp = 0 then 30 else cProp) *
      ((if cCount = 0 then 1 else cCount : ℤ) : ℚ) / 100⌋ := Int.floor_nonneg.2 harg
  have hdef : newTrainerCounts cCount cProp =
      (if ⌊(if cProp = 0 then 30 else cProp) *
            ((if cCount = 0 then 1 else cCount : ℤ) : ℚ) / 100⌋ = 0 then
        (⟨(if cCount = 0 then 1 else cCount) + 1,
          ⌊(if cProp = 0 then 30 else cProp) *
            ((if cCount = 0 then 1 else cCount : ℤ) : ℚ) / 100⌋ + 1,
          (if cCount = 0 then 1 else cCount) -
          ⌊(if cProp = 0 then 30 else cProp) *
            ((if cCount = 0 then 1 else cCount : ℤ) : ℚ) / 100⌋⟩ : TrainerCounts)
      else
        ⟨(if cCount = 0 then 1 else cCount),
          ⌊(if cProp = 0 then 30 else cProp) *
            ((if cCount = 0 then 1 else cCount : ℤ) : ℚ) / 100⌋,
          (if cCount = 0 then 1 else cCount) -
          ⌊(if cProp = 0 then 30 else cProp) *
            ((if cCount = 0 then 1 else cCount : ℤ) : ℚ) / 100⌋⟩) := by
    simp only [newTrainerCounts, hfloor]
  have hscenario : newTrainerCounts 1 30 = ⟨2, 1, 1⟩ := by
    have h30 : goTrunc ((30 : ℚ) * (((1 : ℤ) : ℚ)) / 100) = 0 := by
      rw [goTrunc_eq_floor _ (by norm_num)]
      norm_num
    simp only [newTrainerCounts, if_neg (by norm_num : ¬(1 : ℤ) = 0),
      if_neg (by norm_num : ¬(30 : ℚ) = 0), h30]
    norm_num
  rw [hdef]
  by_cases h0 : ⌊(if cProp = 0 then 30 else cProp) *
      ((if cCount = 0 then 1 else cCount : ℤ) : ℚ) / 100⌋ = 0
  · rw [if_pos h0, if_pos h0, if_pos h0]
    exact ⟨rfl, rfl, rfl, by dsimp only; omega, by dsimp only; omega, hscenario⟩
  · rw [if_neg h0, if_neg h0, if_neg h0]
    exact ⟨rfl, rfl, rfl, by dsimp only; omega, by dsimp only; omega, hscenario⟩

/-- Closed witness for `C1_split_allocator` at `total_count = 1`,
`test_proportion = 30`. -/
theorem C1_split_allocator_witness :
    newTrainerCounts 1 30 = ⟨2, 1, 1⟩ ∧
    1 ≤ (newTrainerCounts 1 30).testDataCount :=
  ⟨(C1_split_allocator 1 30 (by norm_num) (by norm_num)).2.2.2.2.2,
   (C1_split_allocator 1 30 (by norm_num) (by norm_num)).2.2.2.2.1⟩

/-- An RGBA color value.  Channels are named; see `astiimageNewRGBA` for how
the external constructor's arguments are mapped onto them. -/
structure RGBA where
  r : Nat
  g : Nat
  b : Nat
  a : Nat
deriving DecidableEq, Repr

/-- Modelled from the spec: `astiimage.NewRGBA` comes from the external
package `go-astitools/image`, whose source is not under src/.  The spec
states that the zero-configuration default color scheme is a white
foreground on a red background, which fixes the interpretation of
`NewRGBA(0xff, 0, 0, 0)` as red: the arguments are taken in the order
red, green, blue, alpha. -/
def astiimageNewRGBA (red green blue alpha : Nat) : RGBA :=
  { r := red, g := green, b := blue, a := alpha }

/-- `ConfigurationColor`: a background color and candidate font colors. -/
structure ConfigurationColor where
  background : RGBA
  fonts : List RGBA
deriving DecidableEq, Repr

/-- `ConfigurationFont`: a font file path and a position ratio. -/
structure ConfigurationFont where
  file : String
  positionRatio : ℚ
deriving DecidableEq, Repr

/-- The loaded `font` struct of the trainer (the parsed truetype body is not
modelled; only the name and position ratio matter to the claims). -/
structure Font where
  name : String
  positionRatio : ℚ
deriving DecidableEq, Repr

/-- The built-in default color list substituted by `NewTrainer` when the
configured color list is empty:
`{Background: astiimage.NewRGBA(0xff, 0, 0, 0), Fonts: [astiimage.NewRGBA(0xff, 0xff, 0xff, 0xff)]}`. -/
def defaultColors : List ConfigurationColor :=
  [{ background := astiimageNewRGBA 0xff 0 0 0
     fonts := [astiimageNewRGBA 0xff 0xff 0xff 0xff] }]

/-- `NewTrainer`'s color normalization: `t.colors = c.Colors;
if len(t.colors) == 0 { t.colors = [default] }`. -/
def newTrainerColors (cColors : List ConfigurationColor) : List ConfigurationColor :=
  if cColors.length = 0 then defaultColors else cColors

/-- `NewTrainer`'s loading of one configured font (file reading and truetype
parsing dropped): the font keeps its position ratio unless zero, in which
case it becomes `2.5`. -/
def newTrainerFont (f : ConfigurationFont) : Font :=
  { name := f.file
    positionRatio := if f.positionRatio = 0 then (5 : ℚ) / 2 else f.positionRatio }

/-- `NewTrainer`'s font list: each configured font is loaded with
`newTrainerFont`; with no configured fonts a single built-in `gomono` font
with position ratio `2.5` is used. -/
def newTrainerFonts (cFonts : List ConfigurationFont) : List Font :=
  if cFonts.length > 0 then
    cFonts.map newTrainerFont
  else
    [{ name := "gomono", positionRatio := (5 : ℚ) / 2 }]

/-- The selection pattern of `initParams`, shared by colors, font colors and
fonts:
```
x := l[0]                                  // panics when l is empty
if len(l) > 1 { x = l[rand.Intn(len(l)-1)] }
```
The random draw `r` is only consumed when `l` has more than one element. -/
def selectQuirk {α : Type} (l : List α) (r : Nat) : Option α :=
  match l with
  | [] => none
  | x0 :: rest =>
    if 1 < (x0 :: rest).length then (x0 :: rest).get? (r % ((x0 :: rest).length - 1))
    else some x0

/-- `initParams` from gather.go: draws the font size in `[12, 17]`, then
selects a color scheme, a font color of that scheme, and a font, each with
`selectQuirk`.  Returns `none` when a Go slice index would panic, and the
rng cursor after all draws. -/
def initParams (colors : List ConfigurationColor) (fonts : List Font)
    (rng : Nat → Nat) (i : Nat) : Option (Nat × RGBA × RGBA × Font × Nat) :=
  let fontSize := rng i % 6 + 12
  let i1 := i + 1
  match selectQuirk colors (rng i1) with
  | none => none
  | some cc =>
    let i2 := if 1 < colors.length then i1 + 1 else i1
    match selectQuirk cc.fonts (rng i2) with
    | none => none
    | some fontColor =>
      let i3 := if 1 < cc.fonts.length then i2 + 1 else i2
      match selectQuirk fonts (rng i3) with
      | none => none
      | some font =>
        let i4 := if 1 < fonts.length then i3 + 1 else i3
        some (fontSize, cc.background, fontColor, font, i4)

/-- `GatherSummaryBox` from gather.go.  The label is a single character in
the source (`string(characters[charIdx])`). -/
structure GatherSummaryBox where
  label : Char
  labelIndex : Nat
  x0 : ℤ
  x1 : ℤ
  y0 : ℤ
  y1 : ℤ
deriving DecidableEq, Repr

/-- `GatherSummaryImage` from gather.go.  The `path` returned by
`storeImage` is `<outputDataDirectoryPath>/images/<idx+1>.png`; it is
modelled by its only varying part, the 1-based index `idx+1`. -/
structure GatherSummaryImage where
  height : Nat
  width : Nat
  boxes : List GatherSummaryBox
  path : Nat
deriving DecidableEq, Repr

/-- The per-cell coverage guard of `drawCharacters`:
`if rand.Intn(100) > coverage { continue }`, i.e. the cell is skipped when
the draw exceeds `coverage`. -/
def coverageSkips (draw coverage : Nat) : Bool :=
  draw > coverage

/-- `drawCharacter` from gather.go, character choice part:
`charIdx = rand.Intn(len(characters) - 1); char = string(characters[charIdx])`. -/
def drawCharacterPick (r : Nat) : Char × Nat :=
  let charIdx := r % (characters.length - 1)
  (characters.toList.getD charIdx ' ', charIdx)

/-- The inner column loop of `drawCharacters`:
```
for col := 0; col+step < t.image.Width; col += step {
    x0, x1, y0, y1 := col, col+step, row-step, row
    if rand.Intn(100) > coverage { continue }
    char, charIdx := t.drawCharacter(..., col, row)
    if char == "E" || char == "e" {
        si.Boxes = append(si.Boxes, GatherSummaryBox{...})
    }
}
```
`fuel` bounds the iteration count (the caller passes `W`, which is enough
since `col` grows by `step ≥ 1` while `col + step < W`).  Returns the boxes
appended by this row together with the rng cursor after the row. -/
def loopCols (rng : Nat → Nat) (step coverage W row : Nat) :
    Nat → Nat → Nat → List GatherSummaryBox × Nat
  | _col, i, 0 => ([], i)
  | col, i, fuel + 1 =>
    if col + step < W then
      if coverageSkips (rng i % 100) coverage then
        loopCols rng step coverage W row (col + step) (i + 1) fuel
      else
        let pick := drawCharacterPick (rng (i + 1))
        let rest := loopCols rng step coverage W row (col + step) (i + 2) fuel
        if pick.1 = 'E' ∨ pick.1 = 'e' then
          ({ label := pick.1
             labelIndex := pick.2 + 1
             x0 := (col : ℤ)
             x1 := (col : ℤ) + (step : ℤ)
             y0 := (row : ℤ) - (step : ℤ)
             y1 := (row : ℤ) } :: rest.1, rest.2)
        else
          rest
    else
      ([], i)

/-- The outer row loop of `drawCharacters`:
`for row := step; row < t.image.Height; row += step { ... }`.
`fuel` bounds the iteration count (the caller passes `H`, which is enough
since `row` grows by `step ≥ 1` while `row < H`). -/
def loopRows (rng : Nat → Nat) (step coverage W H : Nat) :
    Nat → Nat → Nat → List GatherSummaryBox × Nat
  | _row, i, 0 => ([], i)
  | row, i, fuel + 1 =>
    if row < H then
      let p := loopCols rng step coverage W row 0 i W
      let q := loopRows rng step coverage W H (row + step) p.2 fuel
      (p.1 ++ q.1, q.2)
    else
      ([], i)

/-- `drawCharacters` from gather.go: `step := fontSize`, then the row/column
grid loops starting at `row = step`.  `i0` is the rng cursor on entry. -/
def drawCharacters (rng : Nat → Nat) (fontSize coverage W H i0 : Nat) :
    List GatherSummaryBox × Nat :=
  loopRows rng fontSize coverage W H fontSize i0 H

/-- `createImageStrategy2` from gather.go, restricted to its observable
annotation output: initialize parameters, draw `coverage := rand.Intn(50)`,
create the canvas (pure background fill, not modelled) and run
`drawCharacters`.  Returns the boxes of the sample and the rng cursor after
the sample, or `none` when `initParams` would panic. -/
def createImageStrategy2Boxes (colors : List ConfigurationColor) (fonts : List Font)
    (W H : Nat) (rng : Nat → Nat) (i : Nat) :
    Option (List GatherSummaryBox × Nat) :=
  match initParams colors fonts rng i with
  | none => none
  | some (fontSize, _backgroundColor, _fontColor, _font, i1) =>
    let coverage := rng i1 % 50
    some (drawCharacters rng fontSize coverage W H (i1 + 1))

/-- The glyph anchor offset of `drawCharacter`:
`int(float64(fontSize) / 2.0 / font.positionRatio)`. -/
def dotOffset (fontSize : Nat) (positionRatio : ℚ) : ℤ :=
  goTrunc ((fontSize : ℚ) / 2 / positionRatio)

/-- The glyph anchor (`Dot`) of `drawCharacter`:
`fixed.P(col + int(float64(fontSize)/2.0/font.positionRatio),
         row - int(float64(fontSize)/2.0/font.positionRatio))`. -/
def drawCharacterDot (fontSize : Nat) (positionRatio : ℚ) (col row : ℤ) : ℤ × ℤ :=
  (col + dotOffset fontSize positionRatio, row - dotOffset fontSize positionRatio)

/-- `createLabelMap` from gather.go: for every character of `characters`
(with its rune index `idx`), an `item { id: idx+1 name: c }` block is
written exactly when the character is `'E'` or `'e'`.  Modelled as the list
of `(id, name)` pairs in file order. -/
def labelMapEntries : List (Nat × Char) :=
  (characters.toList.enum.filter (fun p => p.2 = 'E' ∨ p.2 = 'e')).map
    (fun p => (p.1 + 1, p.2))

/-- Every box appended by the column loop at `row` sits at some column `c`
with `c + step < W`, spans exactly `step` in both directions ending at
`row`, and carries a tracked label (`'E'` or `'e'`) whose index is the
character-pick index plus one. -/
lemma loopCols_mem {rng : Nat → Nat} {step coverage W row : Nat} :
    ∀ (fuel col i : Nat) (b : GatherSummaryBox),
      b ∈ (loopCols rng step coverage W row col i fuel).1 →
      (∃ c : Nat, c + step < W ∧ b.x0 = (c : ℤ) ∧ b.x1 = (c : ℤ) + (step : ℤ)) ∧
      b.y0 = (row : ℤ) - (step : ℤ) ∧ b.y1 = (row : ℤ) ∧
      (∃ k : Nat, k < characters.length - 1 ∧
        b.label = characters.toList.getD k ' ' ∧ b.labelIndex = k + 1 ∧
        (b.label = 'E' ∨ b.label = 'e')) := by
  intro fuel
  induction fuel with
  | zero =>
    intro col i b hb
    simp [loopCols] at hb
  | succ n ih =>
    intro col i b hb
    rw [loopCols] at hb
    by_cases h1 : col + step < W
    · rw [if_pos h1] at hb
      by_cases h2 : coverageSkips (rng i % 100) coverage = true
      · rw [if_pos h2] at hb
        exact ih _ _ _ hb
      · rw [if_neg h2] at hb
        dsimp only at hb
        by_cases h3 : (drawCharacterPick (rng (i + 1))).1 = 'E' ∨
            (drawCharacterPick (rng (i + 1))).1 = 'e'
        · rw [if_pos h3] at hb
          rcases List.mem_cons.1 hb with hb | hb
          · subst hb
            refine ⟨⟨col, h1, rfl, rfl⟩, rfl, rfl,
              ⟨rng (i + 1) % (characters.length - 1), ?_, ?_, rfl, h3⟩⟩
            · exact Nat.mod_lt _ (by decide)
            · rfl
          · exact ih _ _ _ hb
        · rw [if_neg h3] at hb
          exact ih _ _ _ hb
    · rw [if_neg h1] at hb
      simp at hb

/-- Every box produced by the row loop (started at a row that is at least
`step`) lies at some row `r` with `step ≤ r < H` and satisfies the
per-column-loop properties. -/
lemma loopRows_mem {rng : Nat → Nat} {step coverage W H : Nat} :
    ∀ (fuel row i : Nat) (b : GatherSummaryBox), step ≤ row →
      b ∈ (loopRows rng step coverage W H row i fuel).1 →
      (∃ c : Nat, c + step < W ∧ b.x0 = (c : ℤ) ∧ b.x1 = (c : ℤ) + (step : ℤ)) ∧
      (∃ r : Nat, step ≤ r ∧ r < H ∧ b.y0 = (r : ℤ) - (step : ℤ) ∧ b.y1 = (r : ℤ)) ∧
      (∃ k : Nat, k < characters.length - 1 ∧
        b.label = characters.toList.getD k ' ' ∧ b.labelIndex = k + 1 ∧
        (b.label = 'E' ∨ b.label = 'e')) := by
  intro fuel
  induction fuel with
  | zero =>
    intro row i b _ hb
    simp [loopRows] at hb
  | succ n ih =>
    intro row i b hrow hb
    rw [loopRows] at hb
    by_cases h1 : row < H
    · rw [if_pos h1] at hb
      dsimp only at hb
      rcases List.mem_append.1 hb with hb | hb
      · obtain ⟨hc, hy0, hy1, hk⟩ := loopCols_mem _ _ _ _ hb
        exact ⟨hc, ⟨row, hrow, h1, hy0, hy1⟩, hk⟩
      · exact ih _ _ _ (le_trans hrow (Nat.le_add_right _ _)) hb
    · rw [if_neg h1] at hb
      simp at hb

/-- The boxes of `drawCharacters` satisfy the conjunction of column and row
properties. -/
lemma drawCharacters_mem {rng : Nat → Nat} {fontSize coverage W H i0 : Nat}
    {b : GatherSummaryBox} (hb : b ∈ (drawCharacters rng fontSize coverage W H i0).1) :
    (∃ c : Nat, c + fontSize < W ∧ b.x0 = (c : ℤ) ∧ b.x1 = (c : ℤ) + (fontSize : ℤ)) ∧
    (∃ r : Nat, fontSize ≤ r ∧ r < H ∧ b.y0 = (r : ℤ) - (fontSize : ℤ) ∧ b.y1 = (r : ℤ)) ∧
    (∃ k : Nat, k < characters.length - 1 ∧
      b.label = characters.toList.getD k ' ' ∧ b.labelIndex = k + 1 ∧
      (b.label = 'E' ∨ b.label = 'e')) :=
  loopRows_mem _ _ _ _ (le_refl _) hb

/-- **C2.** For every `BoundingBox` recorded by the grid strategy for a
sample generated with font size `S` (font sizes are drawn in `[12, 17]`, so
`1 ≤ S` always holds), the box satisfies `x0 < x1`, `y0 < y1`, and
`x1 - x0 = y1 - y0 = S`: the grid step equals the sample's font size. -/
theorem C2_box_dimensions (rng : Nat → Nat) (S coverage W H i0 : Nat) (hS : 1 ≤ S)
    (b : GatherSummaryBox) (hb : b ∈ (drawCharacters rng S coverage W H i0).1) :
    b.x0 < b.x1 ∧ b.y0 < b.y1 ∧ b.x1 - b.x0 = (S : ℤ) ∧ b.y1 - b.y0 = (S : ℤ) := by
  obtain ⟨⟨c, _, hx0, hx1⟩, ⟨r, _, _, hy0, hy1⟩, -⟩ := drawCharacters_mem hb
  rw [hx0, hx1, hy0, hy1]
  omega

/-- Closed witness for `C2_box_dimensions`: the sample drawn with the
constant oracle `4` on a `14 × 26` canvas with font size `12` produces the
box `(0, 12, 0, 12)` labelled `'e'`, and the theorem applies to it. -/
theorem C2_box_dimensions_witness :
    (⟨'e', 5, 0, 12, 0, 12⟩ : GatherSummaryBox) ∈
      (drawCharacters (fun _ => 4) 12 4 14 26 0).1 ∧
    (⟨'e', 5, 0, 12, 0, 12⟩ : GatherSummaryBox).x0 <
      (⟨'e', 5, 0, 12, 0, 12⟩ : GatherSummaryBox).x1 :=
  ⟨by decide,
   (C2_box_dimensions (fun _ => 4) 12 4 14 26 0 (by decide)
     ⟨'e', 5, 0, 12, 0, 12⟩ (by decide)).1⟩

/-- **C9.** Every bounding box recorded by the grid strategy over a `W × H`
canvas lies entirely inside the canvas: `0 ≤ x0` and `x1 < W` (strict,
because columns require `col + S < W`), and `0 ≤ y0` and `y1 < H` (rows
start at `S` and stay below `H`); no box touches or crosses the right or
bottom edge. -/
theorem C9_box_in_canvas (rng : Nat → Nat) (S coverage W H i0 : Nat)
    (b : GatherSummaryBox) (hb : b ∈ (drawCharacters rng S coverage W H i0).1) :
    0 ≤ b.x0 ∧ b.x1 < (W : ℤ) ∧ 0 ≤ b.y0 ∧ b.y1 < (H : ℤ) := by
  obtain ⟨⟨c, hcW, hx0, hx1⟩, ⟨r, hrS, hrH, hy0, hy1⟩, -⟩ := drawCharacters_mem hb
  rw [hx0, hx1, hy0, hy1]
  omega

/-- Closed witness for `C9_box_in_canvas` on the second box of the same
concrete sample as the C2 witness. -/
theorem C9_box_in_canvas_witness :
    (⟨'e', 5, 0, 12, 12, 24⟩ : GatherSummaryBox) ∈
      (drawCharacters (fun _ => 4) 12 4 14 26 0).1 ∧
    (⟨'e', 5, 0, 12, 12, 24⟩ : GatherSummaryBox).x1 < ((14 : Nat) : ℤ) :=
  ⟨by decide,
   (C9_box_in_canvas (fun _ => 4) 12 4 14 26 0
     ⟨'e', 5, 0, 12, 12, 24⟩ (by decide)).2.1⟩

/-- Among the first `51` positions of the alphabet (the only ones reachable
by `rand.Intn(len(characters)-1)`), the tracked characters sit exactly at
positions `4` (`'e'`) and `30` (`'E'`). -/
lemma characters_tracked_positions :
    ∀ k, k < 51 →
      (characters.toList.getD k ' ' = 'E' → k = 30) ∧
      (characters.toList.getD k ' ' = 'e' → k = 4) := by
  decide

/-- **C5.** The label-map artifact contains exactly the tracked subset
`{'E', 'e'}`, each with the 1-based index of its position in the full
52-letter ordered alphabet, and every recorded bounding box's `label_index`
equals the 1-based position of its label in that same full alphabet (not its
position within the tracked subset). -/
theorem C5_label_indices (rng : Nat → Nat) (S coverage W H i0 : Nat)
    (b : GatherSummaryBox) (hb : b ∈ (drawCharacters rng S coverage W H i0).1) :
    labelMapEntries = [(5, 'e'), (31, 'E')] ∧
    (∀ p ∈ labelMapEntries, p.1 = characters.toList.indexOf p.2 + 1) ∧
    characters.length = 52 ∧
    b.labelIndex = characters.toList.indexOf b.label + 1 ∧
    (b.label = 'E' ∨ b.label = 'e') := by
  obtain ⟨-, -, k, hk, hlabel, hidx, hEe⟩ := drawCharacters_mem hb
  have hk51 : k < 51 := by
    have : characters.length = 52 := by decide
    omega
  refine ⟨by decide, by decide, by decide, ?_, hEe⟩
  rcases hEe with hE | he
  · have h30 : k = 30 := (characters_tracked_positions k hk51).1 (hlabel ▸ hE)
    rw [hidx, hE, h30]
    decide
  · have h4 : k = 4 := (characters_tracked_positions k hk51).2 (hlabel ▸ he)
    rw [hidx, he, h4]
    decide

/-- Closed witness for `C5_label_indices` on the first box of the concrete
sample used by the C2 witness. -/
theorem C5_label_indices_witness :
    (⟨'e', 5, 0, 12, 0, 12⟩ : GatherSummaryBox).labelIndex =
      characters.toList.indexOf 'e' + 1 ∧
    labelMapEntries = [(5, 'e'), (31, 'E')] :=
  ⟨(C5_label_indices (fun _ => 4) 12 4 14 26 0
     ⟨'e', 5, 0, 12, 0, 12⟩ (by decide)).2.2.2.1,
   (C5_label_indices (fun _ => 4) 12 4 14 26 0
     ⟨'e', 5, 0, 12, 0, 12⟩ (by decide)).1⟩

/-- Counting the draws of `rand.Intn n` that exceed a threshold `c`:
`n - min n (c + 1)` of the `n` equally likely outcomes are greater than `c`. -/
lemma length_filter_range_gt (n c : Nat) :
    ((List.range n).filter (fun d => decide (c < d))).length = n - min n (c + 1) := by
  induction n with
  | zero => simp
  | succ m ih =>
    rw [List.range_succ, List.filter_append, List.length_append, ih]
    by_cases h : c < m
    · simp only [List.filter_cons, List.filter_nil, decide_eq_true h, if_pos]
      simp only [List.length_cons, List.length_nil]
      omega
    · simp only [List.filter_cons, List.filter_nil]
      rw [decide_eq_false h]
      simp only [Bool.false_eq_true, if_false, List.length_nil]
      omega

/-- **C4 (counterexample).** The claim that a cell is skipped with
probability `(100 - coverage)/100` fails at `coverage = 0`: of the `100`
equally likely draws of `rand.Intn(100)`, the guard
`coverageSkips draw coverage` skips for `99` of them, not `100 - 0 = 100`. -/
theorem C4_skip_probability_counterexample :
    ((List.range 100).filter (fun d => coverageSkips d 0)).length ≠ 100 - 0 := by
  decide

/-- **C4 (amended).** For every sample, a single uniform random integer
`coverage` in `[0, 50)` is drawn once per sample (not per cell), and for
each grid cell a character is placed exactly when a fresh uniform `[0, 100)`
draw is `≤ coverage`; hence the cell is skipped for `99 - coverage` of the
`100` equally likely draws, i.e. with probability `(99 - coverage)/100`
(not `(100 - coverage)/100`). -/
theorem C4_coverage_semantics :
    (∀ d c : Nat, coverageSkips d c = false ↔ d ≤ c) ∧
    (∀ c : Nat, c ≤ 99 →
      ((List.range 100).filter (fun d => coverageSkips d c)).length = 99 - c) ∧
    (∀ (colors : List ConfigurationColor) (fonts : List Font) (W H : Nat)
        (rng : Nat → Nat) (i : Nat) (r : List GatherSummaryBox × Nat),
      createImageStrategy2Boxes colors fonts W H rng i = some r →
      ∃ fontSize j, rng j % 50 < 50 ∧
        r = drawCharacters rng fontSize (rng j % 50) W H (j + 1)) := by
  refine ⟨?_, ?_, ?_⟩
  · intro d c
    simp [coverageSkips]
  · intro c hc
    have h := length_filter_range_gt 100 c
    simp only [coverageSkips]
    rw [h]
    omega
  · intro colors fonts W H rng i r hr
    unfold createImageStrategy2Boxes at hr
    cases hip : initParams colors fonts rng i with
    | none => rw [hip] at hr; exact absurd hr (by simp)
    | some v =>
      obtain ⟨fontSize, bg, fc, f, i1⟩ := v
      rw [hip] at hr
      dsimp only at hr
      refine ⟨fontSize, i1, Nat.mod_lt _ (by decide), ?_⟩
      exact (Option.some_injective _ hr).symm

/-- Closed witness for `C4_coverage_semantics`: the placement guard at
`draw = 3, coverage = 5`, the skip count at `coverage = 0`, and a full
concrete sample. -/
theorem C4_coverage_semantics_witness :
    coverageSkips 3 5 = false ∧
    ((List.range 100).filter (fun d => coverageSkips d 0)).length = 99 - 0 ∧
    (∃ fontSize j, (fun _ => 4 : Nat → Nat) j % 50 < 50 ∧
      (([], 2) : List GatherSummaryBox × Nat) =
        drawCharacters (fun _ => 4) fontSize ((fun _ => 4 : Nat → Nat) j % 50) 16 28 (j + 1)) :=
  ⟨(C4_coverage_semantics.1 3 5).mpr (by decide),
   C4_coverage_semantics.2.1 0 (by decide),
   C4_coverage_semantics.2.2 defaultColors (newTrainerFonts []) 16 28
     (fun _ => 4) 0 ([], 2) (by decide)⟩

/-- **C8 (counterexample).** The claim that the glyph anchor is the cell's
top-left corner shifted by `(+offset, -offset)` fails at
`S = 12, r = 5/2` for the cell `(col, row) = (0, 12)` (whose top-left
corner is `(0, 0)`): the code anchors at `(2, 10)`, not `(2, -2)`. -/
theorem C8_anchor_counterexample :
    drawCharacterDot 12 (5 / 2) 0 12 ≠
      ((0 : ℤ) + dotOffset 12 (5 / 2), ((12 : ℤ) - 12) - dotOffset 12 (5 / 2)) := by
  have hoff : dotOffset 12 (5 / 2) = 2 := by
    unfold dotOffset
    rw [goTrunc_eq_floor _ (by norm_num)]
    norm_num
  rw [drawCharacterDot, hoff]
  intro h
  have h2 := congrArg Prod.snd h
  simp only at h2
  omega

/-- **C8 (amended).** For every character placed at grid cell `(col, row)`
with font size `S` and font position ratio `r > 0`, the glyph anchor is
offset from the cell's *bottom-left* corner `(col, row)` (the `row` passed
by `drawCharacters` is the cell's bottom edge `y1`, not its top edge) by
`⌊S / (2 r)⌋` pixels, added to the x coordinate and subtracted from the
y coordinate. -/
theorem C8_anchor_amended (S : Nat) (r : ℚ) (col row : ℤ) (hr : 0 < r) :
    drawCharacterDot S r col row =
      (col + ⌊(S : ℚ) / (2 * r)⌋, row - ⌊(S : ℚ) / (2 * r)⌋) := by
  have h1 : (S : ℚ) / 2 / r = (S : ℚ) / (2 * r) := div_div _ _ _
  have h2 : (0 : ℚ) ≤ (S : ℚ) / (2 * r) := by positivity
  unfold drawCharacterDot dotOffset
  rw [h1, goTrunc_eq_floor _ h2]

/-- Closed witness for `C8_anchor_amended` at `S = 12`, `r = 5/2`,
cell `(0, 12)`. -/
theorem C8_anchor_amended_witness :
    drawCharacterDot 12 (5 / 2) 0 12 =
      ((0 : ℤ) + ⌊((12 : Nat) : ℚ) / (2 * (5 / 2))⌋,
       (12 : ℤ) - ⌊((12 : Nat) : ℚ) / (2 * (5 / 2))⌋) :=
  C8_anchor_amended 12 (5 / 2) 0 12 (by norm_num)

/-- **C7.** For every sample's style selection: when the configured
color-scheme list (or font list) has more than one element, the selected
index is `r % (n-1)`, which is uniform over `[0, n-1)` — every such index is
attainable and the last configured element is never chosen; when zero color
schemes or zero fonts are configured, the single built-in default scheme
(white foreground on red background) and the single built-in default font
(with position ratio `2.5`) are used. -/
theorem C7_style_selection :
    (∀ (α : Type) (l : List α) (r : Nat), 1 < l.length →
      ∃ k, k < l.length - 1 ∧ selectQuirk l r = l.get? k) ∧
    (∀ (α : Type) (l : List α) (k : Nat), 1 < l.length → k < l.length - 1 →
      selectQuirk l k = l.get? k) ∧
    newTrainerColors [] = defaultColors ∧
    defaultColors =
      [{ background := { r := 255, g := 0, b := 0, a := 0 }
         fonts := [{ r := 255, g := 255, b := 255, a := 255 }] }] ∧
    newTrainerFonts [] = [{ name := "gomono", positionRatio := (5 : ℚ) / 2 }] := by
  refine ⟨?_, ?_, rfl, rfl, rfl⟩
  · intro α l r h
    match l with
    | x0 :: rest =>
      refine ⟨r % ((x0 :: rest).length - 1), ?_, ?_⟩
      · exact Nat.mod_lt _ (by simp only [List.length_cons] at h ⊢; omega)
      · rw [selectQuirk, if_pos h]
  · intro α l k h hk
    match l with
    | x0 :: rest =>
      rw [selectQuirk, if_pos h, Nat.mod_eq_of_lt hk]

/-- Closed witness for `C7_style_selection`: for a three-element list the
draw `1` selects index `1` (and index `2`, the last element, is outside the
candidate range). -/
theorem C7_style_selection_witness :
    selectQuirk [10, 20, 30] 1 = [10, 20, 30].get? 1 ∧
    newTrainerColors [] = defaultColors :=
  ⟨C7_style_selection.2.1 Nat [10, 20, 30] 1 (by decide) (by decide),
   C7_style_selection.2.2.1⟩

/-- **C10.** `NewTrainer` does not validate that each configured
`ConfigurationColor` has a non-empty font color list — it substitutes the
built-in default only when the whole color list is empty — and `initParams`
indexes the selected scheme's first font color unconditionally, so for a
configured scheme with an empty font list that access is out of range (the
panic branch, modelled as `none`, is reachable). -/
theorem C10_no_font_validation :
    (∀ cs : List ConfigurationColor, cs ≠ [] → newTrainerColors cs = cs) ∧
    (∀ (bg : RGBA) (fonts : List Font) (rng : Nat → Nat) (i : Nat),
      initParams [{ background := bg, fonts := [] }] fonts rng i = none) := by
  constructor
  · intro cs h
    unfold newTrainerColors
    rw [if_neg (by simpa using h)]
  · intro bg fonts rng i
    rfl

/-- Closed witness for `C10_no_font_validation` on a concrete scheme with an
empty font color list. -/
theorem C10_no_font_validation_witness :
    newTrainerColors [{ background := astiimageNewRGBA 0 0 0 0, fonts := [] }] =
      [{ background := astiimageNewRGBA 0 0 0 0, fonts := [] }] ∧
    initParams [{ background := astiimageNewRGBA 0 0 0 0, fonts := [] }]
      (newTrainerFonts []) (fun _ => 0) 0 = none :=
  ⟨C10_no_font_validation.1 _ (by simp),
   C10_no_font_validation.2 (astiimageNewRGBA 0 0 0 0) (newTrainerFonts []) (fun _ => 0) 0⟩

/-- `errors.Wrap` from the pkg/errors dependency as used by gather.go: it
returns `nil` when the wrapped error is `nil` (so the early `return` on a
cancelled context returns a `nil` error, since `err` is still `nil` there). -/
def errorsWrap (e : Option String) (msg : String) : Option String :=
  match e with
  | none => none
  | some s => some (msg ++ ": " ++ s)

/-- Observable outcome of a `Gather` run: the returned error, the 1-based
names of the image files written under `images/`, the two accumulated
summaries, whether the two summary documents were written, and whether a Go
panic (out-of-range slice index in `initParams`) occurred. -/
structure GatherResult where
  err : Option String
  stored : List Nat
  training : List GatherSummaryImage
  test : List GatherSummaryImage
  summariesWritten : Bool
  panicked : Bool
deriving DecidableEq, Repr

/-- The sample loop of `Gather` from gather.go:
```
for idx := 0; idx < t.count; idx++ {
    if ctx.Err() != nil { err = errors.Wrap(err, "astiocr: context error"); return }
    img, si := t.createImageStrategy2()      // both branches call strategy 2
    if len(si.Boxes) == 0 { continue }
    p, _ := t.storeImage(idx, img)           // writes images/<idx+1>.png
    si.Path = p
    if idx < t.trainingDataCount { append to summaryTraining } else { append to summaryTest }
}
// then t.writeSummaries(...) and t.prepareData(ctx)
```
`fuel` is the number of remaining iterations (`Gather` passes `t.count`);
`cancelled` models whether `ctx.Err() != nil`, fixed for the whole run;
file-system writes are modelled as succeeding. -/
def gatherLoop (colors : List ConfigurationColor) (fonts : List Font) (W H : Nat)
    (rng : Nat → Nat) (trainingDataCount : Nat) (cancelled : Bool) :
    Nat → Nat → Nat → GatherResult
  | _idx, _i, 0 =>
    { err := none, stored := [], training := [], test := []
      summariesWritten := true, panicked := false }
  | idx, i, fuel + 1 =>
    if cancelled then
      { err := errorsWrap none "astiocr: context error", stored := [], training := []
        test := [], summariesWritten := false, panicked := false }
    else
      match createImageStrategy2Boxes colors fonts W H rng i with
      | none =>
        { err := none, stored := [], training := [], test := []
          summariesWritten := false, panicked := true }
      | some (boxes, i2) =>
        if boxes.length = 0 then
          gatherLoop colors fonts W H rng trainingDataCount cancelled (idx + 1) i2 fuel
        else
          let si : GatherSummaryImage :=
            { height := H, width := W, boxes := boxes, path := idx + 1 }
          let rest := gatherLoop colors fonts W H rng trainingDataCount cancelled (idx + 1) i2 fuel
          { rest with
            stored := (idx + 1) :: rest.stored
            training := if idx < trainingDataCount then si :: rest.training else rest.training
            test := if idx < trainingDataCount then rest.test else si :: rest.test }

/-- `Gather` from gather.go: the data folders and the label map are created
first (file-system effects modelled as succeeding; note the label map is
written even for a cancelled run), then the sample loop runs for `count`
iterations starting at index `0` and rng cursor `0`. -/
def Gather (colors : List ConfigurationColor) (fonts : List Font) (W H : Nat)
    (rng : Nat → Nat) (count trainingDataCount : Nat) (cancelled : Bool) : GatherResult :=
  gatherLoop colors fonts W H rng trainingDataCount cancelled 0 0 count

/-- The sequence of per-sample annotation lists a run would generate: each
sample's index paired with its boxes, threading the rng cursor exactly as
the loop does; `none` when some sample's `initParams` would panic. -/
def sampleSeq (colors : List ConfigurationColor) (fonts : List Font) (W H : Nat)
    (rng : Nat → Nat) : Nat → Nat → Nat → Option (List (Nat × List GatherSummaryBox))
  | _idx, _i, 0 => some []
  | idx, i, fuel + 1 =>
    match createImageStrategy2Boxes colors fonts W H rng i with
    | none => none
    | some (boxes, i2) =>
      match sampleSeq colors fonts W H rng (idx + 1) i2 fuel with
      | none => none
      | some rest => some ((idx, boxes) :: rest)

/-- The summary entry `Gather` appends for a retained sample. -/
def mkSummaryImage (W H : Nat) (s : Nat × List GatherSummaryBox) : GatherSummaryImage :=
  { height := H, width := W, boxes := s.2, path := s.1 + 1 }

/-- Characterization of an uncancelled, panic-free run: the stored files are
the 1-based indices of the samples with at least one box, the training
summary holds exactly the non-empty samples with `idx < trainingDataCount`,
and the test summary exactly the remaining non-empty samples. -/
lemma gatherLoop_spec (colors : List ConfigurationColor) (fonts : List Font)
    (W H : Nat) (rng : Nat → Nat) (tdc : Nat) :
    ∀ (fuel idx i : Nat) (samples : List (Nat × List GatherSummaryBox)),
      sampleSeq colors fonts W H rng idx i fuel = some samples →
      gatherLoop colors fonts W H rng tdc false idx i fuel =
        { err := none
          stored := (samples.filter (fun s => s.2.length != 0)).map (fun s => s.1 + 1)
          training := (samples.filter
            (fun s => s.2.length != 0 && decide (s.1 < tdc))).map (mkSummaryImage W H)
          test := (samples.filter
            (fun s => s.2.length != 0 && !decide (s.1 < tdc))).map (mkSummaryImage W H)
          summariesWritten := true
          panicked := false } := by
  intro fuel
  induction fuel with
  | zero =>
    intro idx i samples hs
    rw [sampleSeq] at hs
    obtain rfl : samples = [] := (Option.some_injective _ hs).symm
    rfl
  | succ n ih =>
    intro idx i samples hs
    rw [sampleSeq] at hs
    cases hc : createImageStrategy2Boxes colors fonts W H rng i with
    | none => rw [hc] at hs; exact absurd hs (by simp)
    | some v =>
      obtain ⟨boxes, i2⟩ := v
      rw [hc] at hs
      dsimp only at hs
      cases hrest : sampleSeq colors fonts W H rng (idx + 1) i2 n with
      | none => rw [hrest] at hs; exact absurd hs (by simp)
      | some rest =>
        rw [hrest] at hs
        obtain rfl : samples = (idx, boxes) :: rest := (Option.some_injective _ hs).symm
        rw [gatherLoop]
        simp only [Bool.false_eq_true, if_false, hc]
        by_cases hlen : boxes.length = 0
        · rw [if_pos hlen, ih _ _ _ hrest]
          simp [List.filter_cons, hlen]
        · rw [if_neg hlen, ih _ _ _ hrest]
          by_cases hidx : idx < tdc
          · simp [List.filter_cons, hlen, hidx, mkSummaryImage]
          · simp [List.filter_cons, hlen, hidx, mkSummaryImage]

/-- The sample indices of a run are exactly `idx, idx+1, ...`: used to show
distinct samples have distinct indices. -/
lemma sampleSeq_fst (colors : List ConfigurationColor) (fonts : List Font)
    (W H : Nat) (rng : Nat → Nat) :
    ∀ (fuel idx i : Nat) (samples : List (Nat × List GatherSummaryBox)),
      sampleSeq colors fonts W H rng idx i fuel = some samples →
      samples.map Prod.fst = List.range' idx fuel := by
  intro fuel
  induction fuel with
  | zero =>
    intro idx i samples hs
    rw [sampleSeq] at hs
    obtain rfl : samples = [] := (Option.some_injective _ hs).symm
    rfl
  | succ n ih =>
    intro idx i samples hs
    rw [sampleSeq] at hs
    cases hc : createImageStrategy2Boxes colors fonts W H rng i with
    | none => rw [hc] at hs; exact absurd hs (by simp)
    | some v =>
      obtain ⟨boxes, i2⟩ := v
      rw [hc] at hs
      dsimp only at hs
      cases hrest : sampleSeq colors fonts W H rng (idx + 1) i2 n with
      | none => rw [hrest] at hs; exact absurd hs (by simp)
      | some rest =>
        rw [hrest] at hs
        obtain rfl : samples = (idx, boxes) :: rest := (Option.some_injective _ hs).symm
        rw [List.range'_succ]
        simp only [List.map_cons]
        exact congrArg (idx :: ·) (ih _ _ _ hrest)

/-- **C6.** If the caller's cancellation signal is already set before any
sample generation begins, `Gather` writes zero image files and zero summary
documents, and the run terminates without returning an error (the early
return wraps a `nil` error, and `errors.Wrap(nil, ...)` is `nil`): a
normal, non-crash termination distinct from resource-acquisition failures. -/
theorem C6_cancellation (colors : List ConfigurationColor) (fonts : List Font)
    (W H : Nat) (rng : Nat → Nat) (count tdc : Nat) (hcount : 1 ≤ count) :
    Gather colors fonts W H rng count tdc true =
      { err := none, stored := [], training := [], test := []
        summariesWritten := false, panicked := false } := by
  cases count with
  | zero => omega
  | succ k => rfl

/-- Closed witness for `C6_cancellation` with the default configuration and
one requested sample. -/
theorem C6_cancellation_witness :
    Gather defaultColors (newTrainerFonts []) 640 360 (fun _ => 0) 1 1 true =
      { err := none, stored := [], training := [], test := []
        summariesWritten := false, panicked := false } :=
  C6_cancellation defaultColors (newTrainerFonts []) 640 360 (fun _ => 0) 1 1 (by decide)

/-- **C3.** For every generated sample of an uncancelled, panic-free run:
if the sample's annotation list contains zero bounding boxes after the full
grid pass, the sample is not persisted (no image file is written for its
index) and its metadata appears in neither the training summary nor the
test summary; every sample with at least one box is persisted and appended
to exactly one of the two summaries (training when `idx < trainingDataCount`,
test otherwise). -/
theorem C3_drop_empty_samples (colors : List ConfigurationColor) (fonts : List Font)
    (W H : Nat) (rng : Nat → Nat) (count tdc : Nat)
    (samples : List (Nat × List GatherSummaryBox))
    (hs : sampleSeq colors fonts W H rng 0 0 count = some samples) :
    (Gather colors fonts W H rng count tdc false).err = none ∧
    (Gather colors fonts W H rng count tdc false).summariesWritten = true ∧
    (Gather colors fonts W H rng count tdc false).stored =
      (samples.filter (fun s => s.2.length != 0)).map (fun s => s.1 + 1) ∧
    (Gather colors fonts W H rng count tdc false).training =
      (samples.filter
        (fun s => s.2.length != 0 && decide (s.1 < tdc))).map (mkSummaryImage W H) ∧
    (Gather colors fonts W H rng count tdc false).test =
      (samples.filter
        (fun s => s.2.length != 0 && !decide (s.1 < tdc))).map (mkSummaryImage W H) ∧
    (∀ s ∈ samples, s.2 = [] →
      (s.1 + 1) ∉ (Gather colors fonts W H rng count tdc false).stored ∧
      mkSummaryImage W H s ∉ (Gather colors fonts W H rng count tdc false).training ∧
      mkSummaryImage W H s ∉ (Gather colors fonts W H rng count tdc false).test) ∧
    (∀ s ∈ samples, s.2 ≠ [] →
      (s.1 + 1) ∈ (Gather colors fonts W H rng count tdc false).stored ∧
      (mkSummaryImage W H s ∈ (Gather colors fonts W H rng count tdc false).training ↔
        s.1 < tdc) ∧
      (mkSummaryImage W H s ∈ (Gather colors fonts W H rng count tdc false).test ↔
        ¬ s.1 < tdc)) := by
  have hres := gatherLoop_spec colors fonts W H rng tdc count 0 0 samples hs
  have hnodup : (samples.map Prod.fst).Nodup := by
    rw [sampleSeq_fst colors fonts W H rng count 0 0 samples hs]
    exact List.nodup_range' _ _
  simp only [Gather, hres]
  refine ⟨trivial, trivial, trivial, trivial, trivial, ?_, ?_⟩
  · intro s hmem hempty
    refine ⟨?_, ?_, ?_⟩
    · intro habs
      obtain ⟨t, htf, hteq⟩ := List.mem_map.1 habs
      obtain ⟨htmem, htlen⟩ := List.mem_filter.1 htf
      have hfst : t.1 = s.1 := by omega
      have hts : t = s := List.inj_on_of_nodup_map hnodup htmem hmem hfst
      rw [hts, hempty] at htlen
      simp at htlen
    · intro habs
      obtain ⟨t, htf, hteq⟩ := List.mem_map.1 habs
      obtain ⟨htmem, htlen⟩ := List.mem_filter.1 htf
      have hboxes : t.2 = s.2 := congrArg GatherSummaryImage.boxes hteq
      rw [hboxes, hempty] at htlen
      simp at htlen
    · intro habs
      obtain ⟨t, htf, hteq⟩ := List.mem_map.1 habs
      obtain ⟨htmem, htlen⟩ := List.mem_filter.1 htf
      have hboxes : t.2 = s.2 := congrArg GatherSummaryImage.boxes hteq
      rw [hboxes, hempty] at htlen
      simp at htlen
  · intro s hmem hne
    have hlen : (s.2.length != 0) = true := by
      simp only [bne_iff_ne, ne_eq, List.length_eq_zero]
      exact hne
    refine ⟨?_, ⟨?_, ?_⟩, ⟨?_, ?_⟩⟩
    · exact List.mem_map.2 ⟨s, List.mem_filter.2 ⟨hmem, hlen⟩, rfl⟩
    · intro habs
      obtain ⟨t, htf, hteq⟩ := List.mem_map.1 habs
      obtain ⟨htmem, htcond⟩ := List.mem_filter.1 htf
      have hpath : t.1 + 1 = s.1 + 1 := congrArg GatherSummaryImage.path hteq
      have htdc : t.1 < tdc := by
        rw [Bool.and_eq_true] at htcond
        exact of_decide_eq_true htcond.2
      omega
    · intro h
      refine List.mem_map.2 ⟨s, List.mem_filter.2 ⟨hmem, ?_⟩, rfl⟩
      rw [Bool.and_eq_true]
      exact ⟨hlen, decide_eq_true h⟩
    · intro habs
      obtain ⟨t, htf, hteq⟩ := List.mem_map.1 habs
      obtain ⟨htmem, htcond⟩ := List.mem_filter.1 htf
      have hpath : t.1 + 1 = s.1 + 1 := congrArg GatherSummaryImage.path hteq
      have htdc : ¬ t.1 < tdc := by
        rw [Bool.and_eq_true] at htcond
        have h2 := htcond.2
        simp only [Bool.not_eq_true', decide_eq_false_iff_not] at h2
        exact h2
      omega
    · intro h
      refine List.mem_map.2 ⟨s, List.mem_filter.2 ⟨hmem, ?_⟩, rfl⟩
      rw [Bool.and_eq_true, hlen]
      refine ⟨rfl, ?_⟩
      simp only [Bool.not_eq_true', decide_eq_false_iff_not]
      exact h

/-- Closed witness for `C3_drop_empty_samples`: a concrete two-sample run
with one training and one test sample, both retained. -/
theorem C3_drop_empty_samples_witness :
    (Gather defaultColors (newTrainerFonts []) 40 20 (fun _ => 4) 2 1 false).stored = [1, 2] ∧
    (Gather defaultColors (newTrainerFonts []) 40 20 (fun _ => 4) 2 1 false).err = none :=
  have h := C3_drop_empty_samples defaultColors (newTrainerFonts []) 40 20 (fun _ => 4) 2 1
    [(0, [⟨'e', 5, 0, 16, 0, 16⟩, ⟨'e', 5, 16, 32, 0, 16⟩]),
     (1, [⟨'e', 5, 0, 16, 0, 16⟩, ⟨'e', 5, 16, 32, 0, 16⟩])] (by decide)
  ⟨h.2.2.1.trans (by decide), h.1⟩

end Astiocr
